import Mathlib

/-!
# Verification of the feed generator (`generate_feed.py`)

A shallow embedding of the extraction-and-normalization core of the feed
generator.  Pure Python functions become Lean functions over `String` /
`List Char`; the external HTML/selector capability (BeautifulSoup) is
modelled as records of query results; `urllib.parse.urljoin` is ported from
the CPython 3.11 source, since `normalize_href` and the image resolution
call it directly.

Scope notes for the `urljoin` port (documented restrictions, none of which
are exercised by the claims):
* the `params` component (`;`-parameters, `urlparse` vs `urlsplit`) is not
  split out; it only matters for URLs with `;` in the last path segment;
* the `Invalid IPv6 URL` / `_checknetloc` `ValueError` paths are omitted
  (the Python caller catches them and returns `""`);
* character classes (`isalpha`, `\w`, lowercasing) are ASCII, matching the
  inputs the claims quantify over.
-/

/-- CPython `_UNSAFE_URL_BYTES_TO_REMOVE`: characters `urlsplit` deletes
from its input before parsing. -/
def unsafeURLChar (c : Char) : Bool := c = '\t' || c = '\r' || c = '\n'

/-- `urlsplit`'s removal of tab/CR/LF characters. -/
def removeUnsafe (l : List Char) : List Char := l.filter (fun c => !(unsafeURLChar c))

/-- CPython `scheme_chars`: ASCII letters, digits, `+`, `-`, `.`. -/
def schemeChar (c : Char) : Bool := c.isAlphanum || c = '+' || c = '-' || c = '.'

/-- Split a list at the first occurrence of `sep`: returns the part before
and the part after (`none` when `sep` does not occur).  Models Python
`s.split(sep, 1)` / `s.find(sep)`. -/
def splitAtFirst : List Char → Char → Option (List Char × List Char)
  | [], _ => none
  | c :: rest, sep =>
    if c = sep then some ([], rest)
    else
      match splitAtFirst rest sep with
      | none => none
      | some (b, a) => some (c :: b, a)

/-- Scheme recognition of CPython `urlsplit`: a `:` preceded by a non-empty
run of scheme characters whose first character is an ASCII letter.  Returns
the lower-cased scheme and the remainder after the colon. -/
def parseScheme (u : List Char) : Option (List Char × List Char) :=
  match splitAtFirst u ':' with
  | none => none
  | some ([], _) => none
  | some (c :: cs, rest) =>
    if c.isAlpha && (c :: cs).all schemeChar then
      some ((c :: cs).map Char.toLower, rest)
    else none

/-- The five components of CPython `urlsplit` (scheme, netloc, path, query,
fragment); the empty list plays Python's `''`. -/
structure UrlSplit where
  scheme : List Char
  netloc : List Char
  path : List Char
  query : List Char
  fragment : List Char
deriving DecidableEq

/-- Delimiters ending the netloc in `_splitnetloc`. -/
def netlocDelim (c : Char) : Bool := c = '/' || c = '?' || c = '#'

/-- Port of CPython 3.11 `urlsplit` (without the IPv6-bracket and
`_checknetloc` error paths; see the file header). -/
def urlsplitL (url0 : List Char) (defaultScheme : List Char) : UrlSplit :=
  let url1 := removeUnsafe url0
  let ds := removeUnsafe defaultScheme
  let sr :=
    match parseScheme url1 with
    | some (s, r) => (s, r)
    | none => (ds, url1)
  let scheme := sr.1
  let nr :=
    match sr.2 with
    | '/' :: '/' :: r => (r.takeWhile (fun c => !netlocDelim c), r.dropWhile (fun c => !netlocDelim c))
    | rest => ([], rest)
  let netloc := nr.1
  let fr :=
    match splitAtFirst nr.2 '#' with
    | some (b, f) => (b, f)
    | none => (nr.2, [])
  let pq :=
    match splitAtFirst fr.1 '?' with
    | some (b, q) => (b, q)
    | none => (fr.1, [])
  ⟨scheme, netloc, pq.1, pq.2, fr.2⟩

/-- CPython `uses_relative`. -/
def usesRelative : List (List Char) :=
  ["", "ftp", "http", "gopher", "nntp", "imap", "wais", "file", "https", "shttp", "mms",
   "prospero", "rtsp", "rtspu", "sftp", "svn", "svn+ssh", "ws", "wss"].map String.toList

/-- CPython `uses_netloc`. -/
def usesNetloc : List (List Char) :=
  ["", "ftp", "http", "gopher", "nntp", "telnet", "imap", "wais", "file", "mms", "https",
   "shttp", "snews", "prospero", "rtsp", "rtspu", "rsync", "svn", "svn+ssh", "sftp", "nfs",
   "git", "git+ssh", "ws", "wss"].map String.toList

/-- Port of CPython 3.11 `urlunsplit`. -/
def urlunsplitL (p : UrlSplit) : List Char :=
  let url := p.path
  let url :=
    if p.netloc ≠ [] ∨ (p.scheme ≠ [] ∧ usesNetloc.contains p.scheme ∧ url.take 2 ≠ ['/', '/']) then
      '/' :: '/' :: (p.netloc ++ (if url ≠ [] ∧ url.take 1 ≠ ['/'] then '/' :: url else url))
    else url
  let url := if p.scheme ≠ [] then p.scheme ++ ':' :: url else url
  let url := if p.query ≠ [] then url ++ '?' :: p.query else url
  if p.fragment ≠ [] then url ++ '#' :: p.fragment else url

/-- Python `s.split(sep)` for a single-character separator (keeps empty
parts, always non-empty result). -/
def splitOnChar : List Char → Char → List (List Char)
  | [], _ => [[]]
  | c :: rest, sep =>
    let r := splitOnChar rest sep
    if c = sep then [] :: r
    else
      match r with
      | h :: t => (c :: h) :: t
      | [] => [[c]]

/-- `segments[1:-1] = filter(None, segments[1:-1])` of CPython `urljoin`:
drop empty segments, keeping the first and last elements. -/
def keepLastNonEmpty : List (List Char) → List (List Char)
  | [] => []
  | [x] => [x]
  | x :: rest => if x = [] then keepLastNonEmpty rest else x :: keepLastNonEmpty rest

/-- First and last segments always survive; middles drop empties. -/
def filterMiddleNonEmpty : List (List Char) → List (List Char)
  | [] => []
  | [x] => [x]
  | x :: rest => x :: keepLastNonEmpty rest

/-- Port of CPython 3.11 `urljoin` (via `urlsplit`; see the file header for
the `params` restriction). -/
def urljoinL (base url : List Char) : List Char :=
  if base = [] then url
  else if url = [] then base
  else
    let b := urlsplitL base []
    let u := urlsplitL url b.scheme
    if u.scheme = b.scheme ∧ usesRelative.contains u.scheme then
      if usesNetloc.contains u.scheme ∧ u.netloc ≠ [] then urlunsplitL u
      else
        let netloc := if usesNetloc.contains u.scheme then b.netloc else u.netloc
        if u.path = [] then
          urlunsplitL ⟨u.scheme, netloc, b.path, if u.query = [] then b.query else u.query, u.fragment⟩
        else
          let baseParts := splitOnChar b.path '/'
          let baseParts := if baseParts.getLast? = some [] then baseParts else baseParts.dropLast
          let segments :=
            if u.path.take 1 = ['/'] then splitOnChar u.path '/'
            else filterMiddleNonEmpty (baseParts ++ splitOnChar u.path '/')
          let resolved := segments.foldl
            (fun acc seg =>
              if seg = ['.', '.'] then acc.dropLast
              else if seg = ['.'] then acc
              else acc ++ [seg]) []
          let resolved :=
            if segments.getLast? = some ['.'] ∨ segments.getLast? = some ['.', '.'] then
              resolved ++ [[]]
            else resolved
          let joined := List.intercalate ['/'] resolved
          urlunsplitL ⟨u.scheme, netloc, (if joined = [] then ['/'] else joined), u.query, u.fragment⟩
    else url

/-- `urllib.parse.urljoin` on strings. -/
def urljoin (base url : String) : String := String.mk (urljoinL base.toList url.toList)

-- Sanity checks of the port against observed CPython 3.11 behaviour.
example : urljoin "http://x" "" = "http://x" := by decide
example : urljoin "http://s.test/" "javascript:void(0)" = "javascript:void(0)" := by decide
example : urljoin "http://s.test/" "mailto:a@b" = "mailto:a@b" := by decide
example : urljoin "http://s.test/p" "#frag" = "http://s.test/p#frag" := by decide
example : urljoin "http://s.test/a/b" "/x" = "http://s.test/x" := by decide
example : urljoin "http://s.test/a/b" "x" = "http://s.test/a/x" := by decide
example : urljoin "http://other/" "http://s.test/x" = "http://s.test/x" := by decide
example : urljoin "http://s.test/x" "http://s.test/y?q=1#f" = "http://s.test/y?q=1#f" := by decide
example : urljoin "http://s.test/x" "HTTP://s.test/y" = "http://s.test/y" := by decide
example : urljoin "http://s.test/x" "http://s.test/y?" = "http://s.test/y" := by decide

/-- Python `str.strip()` on a character list (ASCII whitespace; see the
file header). -/
def stripL (l : List Char) : List Char :=
  ((l.dropWhile Char.isWhitespace).reverse.dropWhile Char.isWhitespace).reverse

/-- Python `str.strip()` on strings. -/
def pyStrip (s : String) : String := String.mk (stripL s.toList)

/-- The scheme/fragment rejection of `normalize_href`: the (stripped) href
starts with `javascript:`, `mailto:`, or `#`. -/
def rejectedHref (s : String) : Bool :=
  "javascript:".toList.isPrefixOf s.toList || "mailto:".toList.isPrefixOf s.toList ||
    "#".toList.isPrefixOf s.toList

/-- `normalize_href(href, base, prefix)` of `generate_feed.py` (lines
51-63).  The Python `prefix` argument is `pre` here; `pre = ""` plays the
falsy values (`None` / `""`), matching `prefix or base`. -/
def normalize_href (href base pre : String) : String :=
  if href = "" then ""
  else
    let h := pyStrip href
    if rejectedHref h then ""
    else urljoin (if pre ≠ "" then pre else base) h

example : normalize_href "  /x " "http://s.test/a/b" "" = "http://s.test/x" := by decide
example : normalize_href "javascript:void(0)" "http://s.test/" "" = "" := by decide
example : normalize_href "#sec" "http://s.test/" "" = "" := by decide
example : normalize_href "" "http://s.test/" "" = "" := by decide
example : normalize_href " " "http://s.test/" "" = "http://s.test/" := by decide

/-- The characters the regex `[^\w\-\.]+` of `safe_slug` leaves alone:
word characters (ASCII here), `-` and `.`. -/
def keptChar (c : Char) : Bool := c.isAlphanum || c = '_' || c = '-' || c = '.'

/-- `re.sub(r"[^\w\-\.]+", "_", ·)`: every maximal run of non-kept
characters becomes a single `_`.  The flag records being inside such a
run. -/
def collapseRuns : Bool → List Char → List Char
  | _, [] => []
  | inRun, c :: rest =>
    if keptChar c then c :: collapseRuns false rest
    else if inRun then collapseRuns true rest
    else '_' :: collapseRuns true rest

/-- `safe_slug` of `generate_feed.py` (lines 23-27). -/
def safe_slug (text : String) : String :=
  if text = "" then "site"
  else
    let s := String.mk ((collapseRuns false (stripL text.toList)).take 120)
    if s = "" then "site" else s

example : safe_slug "a-b.c !!x" = "a-b.c_x" := by decide
example : safe_slug "" = "site" := by decide
example : safe_slug "  " = "site" := by decide

/-- An element of the parsed document, as the extractor sees it: its
attribute map (`element.get`/`has_attr`) and its normalized text content
(`get_text(" ", strip=True)`), both supplied by the external
BeautifulSoup capability. -/
structure Element where
  attrs : List (String × String)
  text : String
deriving DecidableEq

/-- BeautifulSoup `element.get(name)`: `none` when the attribute is
absent. -/
def Element.getAttr (el : Element) (name : String) : Option String :=
  (el.attrs.find? (fun p => p.1 == name)).map (fun p => p.2)

/-- `ss.split(",")[0].strip().split(" ")[0]` of `pick_image_src`. -/
def srcsetFirstCandidate (ss : String) : String :=
  String.mk ((splitOnChar (stripL ((splitOnChar ss.toList ',').headD [])) ' ').headD [])

/-- The attribute order tried by `pick_image_src` (line 40). -/
def attrFallback : List String := ["src", "data-src", "data-original", "data-lazy"]

/-- The `for attr in (...)` loop of `pick_image_src`: first attribute whose
value is truthy (present and non-empty). -/
def firstTruthyAttr (el : Element) : List String → Option String
  | [] => none
  | a :: rest =>
    match el.getAttr a with
    | some v => if v ≠ "" then some v else firstTruthyAttr el rest
    | none => firstTruthyAttr el rest

/-- `pick_image_src(element)` of `generate_feed.py` (lines 38-49); the
`none` case is Python's `element` being `None`. -/
def pick_image_src (element : Option Element) : String :=
  match element with
  | none => ""
  | some el =>
    match firstTruthyAttr el attrFallback with
    | some v => v
    | none =>
      match el.getAttr "srcset" with
      | some ss =>
        let t := srcsetFirstCandidate ss
        if t ≠ "" then t else ""
      | none => ""

example : pick_image_src (some ⟨[("data-src", "b.jpg"), ("srcset", "c.jpg 1x")], ""⟩) = "b.jpg" := by decide
example : pick_image_src (some ⟨[("srcset", "a.jpg 1x, b.jpg 2x")], ""⟩) = "a.jpg" := by decide
example : pick_image_src (some ⟨[("src", ""), ("srcset", "b.jpg 1x")], ""⟩) = "b.jpg" := by decide

/-- The error a failing selector query reports (a raised exception in the
Python; `soup.select` / `select_one` on an invalid selector). -/
inductive SelectorError where
  | invalid : SelectorError

/-- One candidate item node, as the field extractor queries it:
`select_one` within the node (with its possible failure), the first `<a>`
descendant (`elem.find("a")`), and the first `<img>` descendant
(`elem.find("img")`).  All three are supplied by the external document
capability. -/
structure Node where
  selectOne : String → Except SelectorError (Option Element)
  findA : Option Element
  findImg : Option Element

/-- The parsed document: `soup.select` with its possible `SelectorError`. -/
structure Document where
  select : String → Except SelectorError (List Node)

/-- `safe_text(sel)` of `scrape_site_from_cfg` (lines 97-104); a failing or
non-matching sub-selector degrades to `""`. -/
def safe_text (elem : Node) (sel : String) : String :=
  if pyStrip sel = "" then ""
  else
    match elem.selectOne (pyStrip sel) with
    | .error _ => ""
    | .ok none => ""
    | .ok (some el) => el.text

/-- The href produced by the configured selector in `safe_link` (lines
108-115): `""` when the selector is empty, fails, or matches nothing. -/
def raw_link_selected (elem : Node) (sel : String) : String :=
  if pyStrip sel = "" then ""
  else
    match elem.selectOne (pyStrip sel) with
    | .error _ => ""
    | .ok none => ""
    | .ok (some el) => (el.getAttr "href").getD ""

/-- The raw href of `safe_link` after the first-`<a>` fallback of lines
117-120, which runs only when the selected href is empty. -/
def raw_link (elem : Node) (sel : String) : String :=
  if raw_link_selected elem sel = "" then
    match elem.findA with
    | some a => (a.getAttr "href").getD ""
    | none => ""
  else raw_link_selected elem sel

/-- `safe_link(sel)` of `scrape_site_from_cfg` (lines 107-122): configured
selector first, then the first `<a>` descendant when that produced no
href, then `normalize_href`.  `lp` is the (stripped) `link_prefix`, `""`
playing `None`. -/
def safe_link (elem : Node) (sel url lp : String) : String :=
  normalize_href (raw_link elem sel) url lp

/-- The raw picture source of `safe_image` (lines 125-137), before URL
resolution: configured selector first, then the first `<img>`
descendant. -/
def raw_image_src (elem : Node) (sel : String) : String :=
  let img :=
    if pyStrip sel = "" then ""
    else
      match elem.selectOne (pyStrip sel) with
      | .error _ => ""
      | .ok none => ""
      | .ok (some el) => pick_image_src (some el)
  if img = "" then
    match elem.findImg with
    | some i => pick_image_src (some i)
    | none => ""
  else img

/-- `safe_image(sel)` of `scrape_site_from_cfg` (lines 125-140): note the
non-empty raw source goes through bare `urljoin(link_prefix or url, ·)`,
not through `normalize_href`. -/
def safe_image (elem : Node) (sel url lp : String) : String :=
  let img := raw_image_src elem sel
  if img = "" then "" else urljoin (if lp ≠ "" then lp else url) img

/-- The per-site field-selector mapping (`cfg["fields"]`), each key read
with `fields.get(key, "")`; absent keys are `""`.  Non-string YAML values
behave as empty selectors in the Python (`isinstance` guards) and are not
modelled separately. -/
structure Fields where
  title : String := ""
  subtitle : String := ""
  subtitle_is : String := ""
  description : String := ""
  description_is : String := ""
  link : String := ""
  picture : String := ""
deriving DecidableEq

/-- The per-item dict built at lines 142-148. -/
structure Entry where
  title : String
  subtitle : String
  description : String
  link : String
  picture : String
deriving DecidableEq

/-- The item dict as first assembled (lines 142-148), before validation. -/
def mkItem (fields : Fields) (url lp : String) (elem : Node) : Entry :=
  { title := safe_text elem fields.title
    subtitle := fields.subtitle_is ++ safe_text elem fields.subtitle
    description := fields.description_is ++ safe_text elem fields.description
    link := safe_link elem fields.link url lp
    picture := safe_image elem fields.picture url lp }

/-- The item after the link fallback of lines 155-157 (`link = url` when
extraction produced an empty link). -/
def validatedEntry (fields : Fields) (url lp : String) (elem : Node) : Entry :=
  let item := mkItem fields url lp elem
  { item with link := if item.link = "" then url else item.link }

/-- Lines 150-159 for one node: drop it when the title is empty, otherwise
keep the validated entry. -/
def processNode (fields : Fields) (url lp : String) (elem : Node) : Option Entry :=
  if (mkItem fields url lp elem).title = "" then none
  else some (validatedEntry fields url lp elem)

/-- The entry loop plus the final `entries.reverse()` (lines 93-167). -/
def scrapeEntries (fields : Fields) (url lp : String) (nodes : List Node) : List Entry :=
  (nodes.filterMap (processNode fields url lp)).reverse

/-- The realized site configuration (§3 SiteConfig); `""` / `none` play
the missing YAML keys. -/
structure SiteCfg where
  site_name : String := ""
  url : String := ""
  item_selector : String := ""
  fields : Fields := {}
  link_prefix : String := ""
  description : Option String := none
  language : Option String := none

/-- `scrape_site_from_cfg(cfg, fname_for_fallback)` (lines 65-168).  The
external fetch-and-parse step is the `fetched` argument (`none` = fetch
failure or empty body).  The per-item `except` of lines 161-164 has no
failing operations in this model (every field lookup is total). -/
def scrape_site_from_cfg (cfg : SiteCfg) (fname_for_fallback : String)
    (fetched : Option Document) : String × List Entry :=
  match cfg with
  | ⟨sn0, url0, isel0, fields, lp0, _, _⟩ =>
    let site_name := if pyStrip sn0 ≠ "" then pyStrip sn0 else safe_slug fname_for_fallback
    let url := pyStrip url0
    if url = "" then (site_name, [])
    else if pyStrip isel0 = "" then (site_name, [])
    else
      match fetched with
      | none => (site_name, [])
      | some doc =>
        match doc.select (pyStrip isel0) with
        | .error _ => (site_name, [])
        | .ok elements => (site_name, scrapeEntries fields url (pyStrip lp0) elements)

/-- One serialized feed item (`fe.title` / `fe.link` / `fe.description`;
the `pubDate` timestamp is external wall-clock time and not modelled). -/
structure FeedEntry where
  title : String
  link : String
  description : String
deriving DecidableEq

/-- The assembled feed object of `build_and_write_feed`. -/
structure Feed where
  title : String
  link : String
  description : String
  language : String
  items : List FeedEntry
deriving DecidableEq

/-- Line 183-185: the composed display title.  The separator literal in
the source is U+00E2 U+20AC U+201C (an en dash whose UTF-8 bytes were
mis-decoded as Windows-1252), not an en dash. -/
def composeEntryTitle (e : Entry) : String :=
  if e.subtitle ≠ "" then e.title ++ " â€“ " ++ e.subtitle else e.title

/-- Lines 188-190: the composed description, with the image reference
prepended when a picture is present. -/
def composeEntryDesc (e : Entry) : String :=
  if e.picture ≠ "" then
    "<img src=\"" ++ e.picture ++ "\" alt=\"image\" /><br/>" ++ e.description
  else e.description

/-- `build_and_write_feed` (lines 170-200) up to the external XML writer:
`none` when no feed is written (empty entries, line 171); otherwise the
output filename (line 194) and the assembled feed value. -/
def build_and_write_feed (site_name : String) (cfg : SiteCfg) (entries : List Entry) :
    Option (String × Feed) :=
  if entries = [] then none
  else
    some (safe_slug site_name ++ ".xml",
      { title := site_name
        link := cfg.url
        description := (cfg.description).getD site_name
        language := (cfg.language).getD "en"
        items := entries.map (fun e =>
          { title := composeEntryTitle e
            link := e.link
            description := composeEntryDesc e }) })

/-- Everything the per-site iteration of `main` (lines 208-221) consumes
for one site: its parsed config, its filename stem, and its fetched
document. -/
structure SiteInput where
  cfg : SiteCfg
  fname : String
  fetched : Option Document

/-- One iteration of the `main` loop: scrape, then build-and-write. -/
def processSite (inp : SiteInput) : String × Option (String × Feed) :=
  let r := scrape_site_from_cfg inp.cfg inp.fname inp.fetched
  (r.1, build_and_write_feed r.1 inp.cfg r.2)

/-- The whole `main` loop over the discovered sites, in order. -/
def processAllSites (inputs : List SiteInput) : List (String × Option (String × Feed)) :=
  inputs.map processSite

/-- C5's reading of the picture chain, for comparison with the code:
strict precedence on attribute *presence* — the first present attribute's
value is taken; `srcset` is consulted only when all four are absent,
taking the token before the first whitespace of the first comma-separated
candidate. -/
def pick_image_src_claim (el : Element) : String :=
  match el.getAttr "src" with
  | some v => v
  | none =>
    match el.getAttr "data-src" with
    | some v => v
    | none =>
      match el.getAttr "data-original" with
      | some v => v
      | none =>
        match el.getAttr "data-lazy" with
        | some v => v
        | none =>
          match el.getAttr "srcset" with
          | some ss =>
            String.mk ((stripL ((splitOnChar ss.toList ',').headD [])).takeWhile
              (fun c => !c.isWhitespace))
          | none => ""

/-- The amended C5 chain, as the code behaves: the first *non-empty*
attribute value wins; `srcset` is consulted when all four are absent or
empty, taking the token before the first space character of the first
comma-separated candidate (after stripping). -/
def pick_image_src_amended (el : Element) : String :=
  if ((el.getAttr "src").getD "") ≠ "" then (el.getAttr "src").getD ""
  else if ((el.getAttr "data-src").getD "") ≠ "" then (el.getAttr "data-src").getD ""
  else if ((el.getAttr "data-original").getD "") ≠ "" then (el.getAttr "data-original").getD ""
  else if ((el.getAttr "data-lazy").getD "") ≠ "" then (el.getAttr "data-lazy").getD ""
  else
    match el.getAttr "srcset" with
    | some ss => srcsetFirstCandidate ss
    | none => ""

/-- `\w` of the spec's slug sentence (ASCII): letters, digits,
underscore. -/
def wordChar (c : Char) : Bool := c.isAlphanum || c = '_'

/-- "Already-absolute URL with a safe (navigable) scheme" of C6: an
`http`/`https` URL with a host, carrying no surrounding whitespace, whose
`urlsplit` decomposition reassembles to itself (i.e. no redundant empty
`?`/`#` delimiters). -/
def safeAbsolute (u : String) : Bool :=
  ("http://".toList.isPrefixOf u.toList || "https://".toList.isPrefixOf u.toList) &&
  (pyStrip u == u) &&
  !(urlsplitL u.toList []).netloc.isEmpty &&
  (urlunsplitL (urlsplitL u.toList []) == u.toList)

example : safeAbsolute "http://s.test/x" = true := by decide
example : safeAbsolute "https://s.test/a/b?q=1#f" = true := by decide
example : safeAbsolute "/x" = false := by decide
example : safeAbsolute "javascript:void(0)" = false := by decide

/-! Concrete fixtures used by the witnesses: a minimal document in the
shape of the spec's §8 scenario (item nodes with an `h2` title and an
`a[href="/x"]` link), a node whose link selector hits a `javascript:`
href while a navigable anchor descendant exists, a `javascript:`-sourced
image node, and a document whose item selector always fails. -/

def elTitleA : Element := ⟨[], "Alpha"⟩

def elTitleB : Element := ⟨[], "Beta"⟩

def elTitleC : Element := ⟨[], "Gamma"⟩

def elAnchorX : Element := ⟨[("href", "/x")], ""⟩

def fixtureNode (t : Element) : Node :=
  ⟨fun s => if s = "h2" then .ok (some t) else if s = "a" then .ok (some elAnchorX) else .ok none,
    some elAnchorX, none⟩

def nodeA : Node := fixtureNode elTitleA

def nodeB : Node := fixtureNode elTitleB

def nodeC : Node := fixtureNode elTitleC

def fieldsW : Fields := { title := "h2", link := "a" }

def elJsLink : Element := ⟨[("href", "javascript:void(0)")], ""⟩

def nodeJs : Node :=
  ⟨fun s =>
      if s = "h2" then .ok (some elTitleA)
      else if s = "a.main" then .ok (some elJsLink)
      else .ok none,
    some elAnchorX, none⟩

def fieldsJs : Fields := { title := "h2", link := "a.main" }

def elJsImg : Element := ⟨[("src", "javascript:void(0)")], ""⟩

def nodeJsImg : Node := ⟨fun _ => .ok none, none, some elJsImg⟩

def badSelectorDoc : Document := ⟨fun _ => .error .invalid⟩

def cfgW : SiteCfg :=
  { site_name := "Site", url := "http://s.test", item_selector := ".post", fields := fieldsW }

-- The §8 scenario end to end: both nodes validate, links resolve against
-- the site URL, and the order is reversed.
example :
    scrapeEntries fieldsW "https://s.test" "" [nodeA, nodeB] =
      [⟨"Beta", "", "", "https://s.test/x", ""⟩, ⟨"Alpha", "", "", "https://s.test/x", ""⟩] := by
  decide

/-! ## Shared helper lemmas -/

theorem mk_toList (s : String) : String.mk s.toList = s := rfl

theorem toList_mk (l : List Char) : (String.mk l).toList = l := rfl

/-- `urljoin(b, "")` returns the base, for every base (`if not url: return
base`). -/
theorem urljoin_empty_url (b : String) : urljoin b "" = b := by
  have h0 : ("" : String).toList = [] := rfl
  unfold urljoin urljoinL
  rw [h0]
  by_cases hb : b.toList = []
  · rw [if_pos hb]
    conv_rhs => rw [← mk_toList b, hb]
  · rw [if_neg hb, if_pos rfl]
    exact mk_toList b

theorem rejectedHref_empty : rejectedHref "" = false := rfl

/-! ## C3 -/

/-- C3 as stated is false: a single-space href (whitespace-only but
non-empty) normalizes to the base, not to `""`. -/
theorem c3_counterexample :
    normalize_href " " "http://x" "" = "http://x" ∧ normalize_href " " "http://x" "" ≠ "" := by
  decide

/-- C3 amended: an empty href normalizes to `""` for every base and
prefix; a non-empty, whitespace-only href normalizes to the join base
(the prefix when non-empty, else the base URL), because `urljoin` returns
the base for an empty url. -/
theorem c3_whitespace_href (base pre s : String) (hne : s ≠ "") (hws : pyStrip s = "") :
    normalize_href "" base pre = "" ∧
    normalize_href s base pre = (if pre ≠ "" then pre else base) := by
  constructor
  · rfl
  · unfold normalize_href
    rw [if_neg hne, hws]
    show (if rejectedHref "" = true then "" else urljoin (if pre ≠ "" then pre else base) "") =
      if pre ≠ "" then pre else base
    rw [if_neg (by decide : ¬ rejectedHref "" = true)]
    exact urljoin_empty_url _

theorem c3_witness :
    ((" " : String) ≠ "" ∧ pyStrip " " = "") ∧
    (normalize_href "" "http://x" "" = "" ∧
      normalize_href " " "http://x" "" = (if ("" : String) ≠ "" then "" else "http://x")) :=
  ⟨⟨by decide, by decide⟩, c3_whitespace_href "http://x" "" " " (by decide) (by decide)⟩

/-! ## C9 -/

/-- Every character `collapseRuns` emits is kept by the regex class
(word characters, `-`, `.`; the inserted `_` is a word character). -/
theorem collapseRuns_all_kept (l : List Char) :
    ∀ b, (collapseRuns b l).all keptChar = true := by
  induction l with
  | nil => intro b; rfl
  | cons c rest ih =>
    intro b
    by_cases hc : keptChar c = true
    · simp [collapseRuns, hc, ih]
    · simp only [Bool.not_eq_true] at hc
      cases b
      · simp [collapseRuns, hc, ih, (show keptChar '_' = true from rfl)]
      · simp [collapseRuns, hc, ih]

/-- C9 as stated is false: `-` and `.` are not word characters, yet
`safe_slug` keeps them (`[^\w\-\.]+`, not `[^\w]+`). -/
theorem c9_counterexample :
    safe_slug "a-b.c" = "a-b.c" ∧ (safe_slug "a-b.c").toList.all wordChar = false := by
  decide

/-- The branch structure of `safe_slug`, with the `let` unfolded. -/
theorem safe_slug_eq (s : String) :
    safe_slug s =
      if s = "" then "site"
      else if String.mk ((collapseRuns false (stripL s.toList)).take 120) = "" then "site"
      else String.mk ((collapseRuns false (stripL s.toList)).take 120) := rfl

/-- C9 amended: `safe_slug` collapses runs of characters other than word
characters, `-` and `.` to a single `_`, truncates to 120 characters,
and yields `"site"` for empty input (or when the result is empty);
consequently every output character is a word character, `-` or `.`. -/
theorem c9_slug_properties (s : String) :
    (safe_slug s).toList.all keptChar = true ∧
    (safe_slug s).toList.length ≤ 120 ∧
    safe_slug s ≠ "" ∧
    (s = "" → safe_slug s = "site") := by
  refine ⟨?_, ?_, ?_, ?_⟩
  · rw [safe_slug_eq]
    split_ifs with h1 h2
    · decide
    · decide
    · rw [toList_mk]
      rw [List.all_eq_true]
      intro c hc
      have hmem := List.mem_of_mem_take hc
      have hall := collapseRuns_all_kept (stripL s.toList) false
      rw [List.all_eq_true] at hall
      exact hall c hmem
  · rw [safe_slug_eq]
    split_ifs with h1 h2
    · decide
    · decide
    · rw [toList_mk, List.length_take]
      exact min_le_left _ _
  · rw [safe_slug_eq]
    split_ifs with h1 h2
    · decide
    · decide
    · exact h2
  · intro hs
    rw [safe_slug_eq, if_pos hs]

theorem c9_witness :
    (("" : String) = "") ∧
    ((safe_slug "").toList.all keptChar = true ∧ (safe_slug "").toList.length ≤ 120 ∧
      safe_slug "" ≠ "" ∧ (("" : String) = "" → safe_slug "" = "site")) :=
  ⟨rfl, c9_slug_properties ""⟩

/-! ## URL lemmas for C4 and C6 -/

theorem httpToList : "http://".toList = ['h', 't', 't', 'p', ':', '/', '/'] := rfl

theorem httpsToList : "https://".toList = ['h', 't', 't', 'p', 's', ':', '/', '/'] := rfl

theorem emptyToList : ("" : String).toList = [] := rfl

theorem parseScheme_http (l : List Char) :
    parseScheme ("http://".toList ++ l) = some ("http".toList, '/' :: '/' :: l) := rfl

theorem parseScheme_https (l : List Char) :
    parseScheme ("https://".toList ++ l) = some ("https".toList, '/' :: '/' :: l) := rfl

theorem parseScheme_js (l : List Char) :
    parseScheme ("javascript:".toList ++ l) = some ("javascript".toList, l) := rfl

theorem parseScheme_mailto (l : List Char) :
    parseScheme ("mailto:".toList ++ l) = some ("mailto".toList, l) := rfl

theorem removeUnsafe_append (a b : List Char) :
    removeUnsafe (a ++ b) = removeUnsafe a ++ removeUnsafe b := by
  unfold removeUnsafe
  rw [List.filter_append]

/-- When the url carries its own scheme, the default scheme passed to
`urlsplit` is irrelevant. -/
theorem urlsplitL_default_irrel (u d s r : List Char)
    (h : parseScheme (removeUnsafe u) = some (s, r)) :
    urlsplitL u d = urlsplitL u [] := by
  simp only [urlsplitL, h]

/-- `urljoin` returns the url argument unchanged when the url's scheme is
not in `uses_relative`. -/
theorem urljoin_scheme_not_relative (b s : String) (sch rest : List Char)
    (hparse : parseScheme (removeUnsafe s.toList) = some (sch, rest))
    (hnotrel : usesRelative.contains sch = false) :
    urljoin b s = s := by
  unfold urljoin urljoinL
  by_cases hb : b.toList = []
  · rw [if_pos hb]; exact mk_toList s
  · rw [if_neg hb]
    by_cases hu : s.toList = []
    · exfalso
      rw [hu] at hparse
      exact Option.noConfusion hparse
    · rw [if_neg hu]
      have hscheme : (urlsplitL s.toList (urlsplitL b.toList []).scheme).scheme = sch := by
        simp only [urlsplitL, hparse]
      simp only [hscheme, hnotrel, Bool.false_eq_true, and_false, if_false]
      exact mk_toList s

/-- A `javascript:` url passes through `urljoin` untouched, for every
base. -/
theorem urljoin_js (b s : String) (t : List Char)
    (ht : s.toList = "javascript:".toList ++ t) : urljoin b s = s := by
  have hru : removeUnsafe s.toList = "javascript:".toList ++ removeUnsafe t := by
    rw [ht]
    unfold removeUnsafe
    rw [List.filter_append]
    rfl
  have hparse : parseScheme (removeUnsafe s.toList) =
      some ("javascript".toList, removeUnsafe t) := by
    rw [hru]; exact parseScheme_js _
  exact urljoin_scheme_not_relative b s _ _ hparse (by decide)

/-- A `mailto:` url passes through `urljoin` untouched, for every base. -/
theorem urljoin_mailto (b s : String) (t : List Char)
    (ht : s.toList = "mailto:".toList ++ t) : urljoin b s = s := by
  have hru : removeUnsafe s.toList = "mailto:".toList ++ removeUnsafe t := by
    rw [ht]
    unfold removeUnsafe
    rw [List.filter_append]
    rfl
  have hparse : parseScheme (removeUnsafe s.toList) =
      some ("mailto".toList, removeUnsafe t) := by
    rw [hru]; exact parseScheme_mailto _
  exact urljoin_scheme_not_relative b s _ _ hparse (by decide)

/-- The netloc branch of `urljoin`: a url in a relative+netloc scheme,
with a host, whose split reassembles to itself, is returned unchanged. -/
theorem urljoin_fixed_of_parse (b u : String) (sch rest : List Char)
    (hparse : parseScheme (removeUnsafe u.toList) = some (sch, rest))
    (hrel : usesRelative.contains sch = true)
    (hnetc : usesNetloc.contains sch = true)
    (hune : u.toList ≠ [])
    (hnl : (urlsplitL u.toList []).netloc ≠ [])
    (hrt : urlunsplitL (urlsplitL u.toList []) = u.toList) :
    urljoin b u = u := by
  unfold urljoin urljoinL
  by_cases hb : b.toList = []
  · rw [if_pos hb]; exact mk_toList u
  · rw [if_neg hb, if_neg hune]
    have hirr : urlsplitL u.toList (urlsplitL b.toList []).scheme = urlsplitL u.toList [] :=
      urlsplitL_default_irrel _ _ _ _ hparse
    have hscheme : (urlsplitL u.toList []).scheme = sch := by
      simp only [urlsplitL, hparse]
    simp only [hirr, hscheme]
    by_cases hs : sch = (urlsplitL b.toList []).scheme
    · rw [if_pos ⟨hs, hrel⟩, if_pos ⟨hnetc, hnl⟩, hrt]
      exact mk_toList u
    · rw [if_neg (fun hc => hs hc.1)]
      exact mk_toList u

/-- `urljoin` leaves a safe absolute URL unchanged, for every base. -/
theorem urljoin_fixed (b u : String) (hu : safeAbsolute u = true) : urljoin b u = u := by
  have hu' := hu
  unfold safeAbsolute at hu'
  rw [Bool.and_eq_true, Bool.and_eq_true, Bool.and_eq_true] at hu'
  obtain ⟨⟨⟨hpre, _htrim⟩, hnl⟩, hrt⟩ := hu'
  rw [Bool.or_eq_true] at hpre
  have hnl' : (urlsplitL u.toList []).netloc ≠ [] := by
    intro h0
    rw [h0] at hnl
    simp at hnl
  rw [beq_iff_eq] at hrt
  rcases hpre with hp | hp
  · rw [List.isPrefixOf_iff_prefix] at hp
    obtain ⟨t, ht⟩ := hp
    have hune : u.toList ≠ [] := by
      rw [← ht, httpToList]; simp
    have hru : removeUnsafe u.toList = "http://".toList ++ removeUnsafe t := by
      rw [← ht]
      unfold removeUnsafe
      rw [List.filter_append]
      rfl
    have hparse : parseScheme (removeUnsafe u.toList) =
        some ("http".toList, '/' :: '/' :: removeUnsafe t) := by
      rw [hru]; exact parseScheme_http _
    exact urljoin_fixed_of_parse b u _ _ hparse (by decide) (by decide) hune hnl' hrt
  · rw [List.isPrefixOf_iff_prefix] at hp
    obtain ⟨t, ht⟩ := hp
    have hune : u.toList ≠ [] := by
      rw [← ht, httpsToList]; simp
    have hru : removeUnsafe u.toList = "https://".toList ++ removeUnsafe t := by
      rw [← ht]
      unfold removeUnsafe
      rw [List.filter_append]
      rfl
    have hparse : parseScheme (removeUnsafe u.toList) =
        some ("https".toList, '/' :: '/' :: removeUnsafe t) := by
      rw [hru]; exact parseScheme_https _
    exact urljoin_fixed_of_parse b u _ _ hparse (by decide) (by decide) hune hnl' hrt

/-- `normalize_href` leaves a safe absolute URL unchanged (it is a fixed
point, hence idempotent on such inputs). -/
theorem normalize_href_fixed (u b p : String) (hu : safeAbsolute u = true) :
    normalize_href u b p = u := by
  have hu' := hu
  unfold safeAbsolute at hu'
  rw [Bool.and_eq_true, Bool.and_eq_true, Bool.and_eq_true] at hu'
  obtain ⟨⟨⟨hpre, htrim⟩, _⟩, _⟩ := hu'
  rw [Bool.or_eq_true] at hpre
  rw [beq_iff_eq] at htrim
  have hfacts : u ≠ "" ∧ rejectedHref u = false := by
    rcases hpre with hp | hp
    · rw [List.isPrefixOf_iff_prefix] at hp
      obtain ⟨t, ht⟩ := hp
      constructor
      · intro h0
        rw [h0, emptyToList] at ht
        rw [httpToList] at ht
        simp at ht
      · unfold rejectedHref
        rw [← ht]
        rfl
    · rw [List.isPrefixOf_iff_prefix] at hp
      obtain ⟨t, ht⟩ := hp
      constructor
      · intro h0
        rw [h0, emptyToList] at ht
        rw [httpsToList] at ht
        simp at ht
      · unfold rejectedHref
        rw [← ht]
        rfl
  obtain ⟨hne, hrej⟩ := hfacts
  unfold normalize_href
  rw [if_neg hne]
  show (if rejectedHref (pyStrip u) = true then ""
      else urljoin (if p ≠ "" then p else b) (pyStrip u)) = u
  rw [htrim, hrej, if_neg Bool.false_ne_true]
  exact urljoin_fixed _ u hu

/-! ## C6 -/

/-- C6: URL normalization is idempotent on already-absolute safe-scheme
URLs (indeed such URLs are fixed points), and returns `""` for every
input that starts with `javascript:`, `mailto:`, or `#` after
trimming. -/
theorem c6_idempotent_and_reject (b p u v : String)
    (hu : safeAbsolute u = true) (hv : rejectedHref (pyStrip v) = true) :
    normalize_href (normalize_href u b p) b p = normalize_href u b p ∧
    normalize_href v b p = "" := by
  constructor
  · rw [normalize_href_fixed u b p hu]
    exact normalize_href_fixed u b p hu
  · by_cases hve : v = ""
    · rw [hve] at hv
      exact absurd hv (by decide)
    · unfold normalize_href
      rw [if_neg hve]
      show (if rejectedHref (pyStrip v) = true then ""
          else urljoin (if p ≠ "" then p else b) (pyStrip v)) = ""
      rw [if_pos hv]

theorem c6_witness :
    (safeAbsolute "http://s.test/x" = true ∧ rejectedHref (pyStrip " mailto:a@b ") = true) ∧
    (normalize_href (normalize_href "http://s.test/x" "http://b/" "pfx") "http://b/" "pfx" =
        normalize_href "http://s.test/x" "http://b/" "pfx" ∧
      normalize_href " mailto:a@b " "http://b/" "pfx" = "") :=
  ⟨⟨by decide, by decide⟩,
    c6_idempotent_and_reject "http://b/" "pfx" "http://s.test/x" " mailto:a@b "
      (by decide) (by decide)⟩

/-! ## C4 -/

/-- C4 as stated is false: a `javascript:` picture source is not
rejected.  `safe_image` feeds the raw source to bare `urljoin`, which
returns it unchanged, while `normalize_href` — which C4 says is applied —
would return `""`. -/
theorem c4_counterexample :
    safe_image nodeJsImg "" "http://s.test/" "" = "javascript:void(0)" ∧
    safe_image nodeJsImg "" "http://s.test/" "" ≠ "" ∧
    normalize_href "javascript:void(0)" "http://s.test/" "" = "" := by decide

/-- C4 amended: a non-empty raw picture source is resolved with bare
`urljoin` against `link_prefix` if present else `url` — without the
normalizer's scheme/fragment rejection; in particular `javascript:` and
`mailto:` sources come back verbatim (hence non-empty). -/
theorem c4_image_resolution (elem : Node) (sel url lp s : String)
    (hraw : raw_image_src elem sel = s) (hne : s ≠ "") :
    safe_image elem sel url lp = urljoin (if lp ≠ "" then lp else url) s ∧
    (∀ t, s.toList = "javascript:".toList ++ t → safe_image elem sel url lp = s) ∧
    (∀ t, s.toList = "mailto:".toList ++ t → safe_image elem sel url lp = s) := by
  have h1 : safe_image elem sel url lp = urljoin (if lp ≠ "" then lp else url) s := by
    unfold safe_image
    show (if raw_image_src elem sel = "" then ""
        else urljoin (if lp ≠ "" then lp else url) (raw_image_src elem sel)) = _
    rw [hraw, if_neg hne]
  refine ⟨h1, ?_, ?_⟩
  · intro t ht
    rw [h1]
    exact urljoin_js _ _ _ ht
  · intro t ht
    rw [h1]
    exact urljoin_mailto _ _ _ ht

theorem c4_witness :
    (raw_image_src nodeJsImg "" = "javascript:void(0)" ∧ ("javascript:void(0)" : String) ≠ "") ∧
    (safe_image nodeJsImg "" "http://s.test/" "" =
        urljoin (if ("" : String) ≠ "" then "" else "http://s.test/") "javascript:void(0)" ∧
      (∀ t, ("javascript:void(0)" : String).toList = "javascript:".toList ++ t →
        safe_image nodeJsImg "" "http://s.test/" "" = "javascript:void(0)") ∧
      (∀ t, ("javascript:void(0)" : String).toList = "mailto:".toList ++ t →
        safe_image nodeJsImg "" "http://s.test/" "" = "javascript:void(0)")) :=
  ⟨⟨by decide, by decide⟩,
    c4_image_resolution nodeJsImg "" "http://s.test/" "" "javascript:void(0)"
      (by decide) (by decide)⟩

/-! ## C5 -/

/-- One step of the attribute loop: the attribute's value is taken when
present and non-empty, otherwise the rest of the chain runs. -/
theorem firstTruthyAttr_cons (el : Element) (a : String) (rest : List String) :
    firstTruthyAttr el (a :: rest) =
      if (el.getAttr a).getD "" ≠ "" then some ((el.getAttr a).getD "")
      else firstTruthyAttr el rest := by
  cases h : Element.getAttr el a with
  | none => simp [firstTruthyAttr, h]
  | some v => simp [firstTruthyAttr, h]

/-- C5 as stated is false: on an element carrying both `data-src` (empty)
and `srcset`, `data-src` does not win — the empty value falls through and
`srcset` is consulted, although `data-src` is present. -/
theorem c5_counterexample :
    pick_image_src (some ⟨[("data-src", ""), ("srcset", "b.jpg 1x")], ""⟩) = "b.jpg" ∧
    pick_image_src_claim ⟨[("data-src", ""), ("srcset", "b.jpg 1x")], ""⟩ = "" := by decide

/-- C5 amended: the chain takes the first attribute with a *non-empty*
value in the order `src`, `data-src`, `data-original`, `data-lazy`;
`srcset` is consulted exactly when all four are absent or empty, taking
the token before the first space of the first comma-separated candidate;
in particular a non-empty `data-src` beats `srcset`. -/
theorem c5_attribute_precedence :
    (∀ el : Element, pick_image_src (some el) = pick_image_src_amended el) ∧
    (∀ (el : Element) (v : String), (el.getAttr "src").getD "" = "" →
      el.getAttr "data-src" = some v → v ≠ "" → pick_image_src (some el) = v) := by
  constructor
  · intro el
    simp only [pick_image_src, pick_image_src_amended, attrFallback, firstTruthyAttr_cons,
      (show firstTruthyAttr el [] = none from rfl)]
    by_cases h1 : (el.getAttr "src").getD "" = "" <;>
      by_cases h2 : (el.getAttr "data-src").getD "" = "" <;>
      by_cases h3 : (el.getAttr "data-original").getD "" = "" <;>
      by_cases h4 : (el.getAttr "data-lazy").getD "" = "" <;>
      simp [h1, h2, h3, h4]
    all_goals {
      cases hss : Element.getAttr el "srcset" with
      | none => rfl
      | some ss =>
        by_cases ht : srcsetFirstCandidate ss = ""
        · simp [ht]
        · simp [ht]
    }
  · intro el v h1 h2 h3
    simp only [pick_image_src, attrFallback, firstTruthyAttr_cons]
    simp [h1, h2, h3]

theorem c5_witness :
    pick_image_src (some ⟨[("data-src", "b.jpg"), ("srcset", "c.jpg 1x")], ""⟩) = "b.jpg" :=
  c5_attribute_precedence.2 ⟨[("data-src", "b.jpg"), ("srcset", "c.jpg 1x")], ""⟩ "b.jpg"
    (by decide) (by decide) (by decide)

/-! ## C1 -/

/-- Membership in the finalized sequence is exactly "some node of the
selection produced this entry". -/
theorem mem_scrapeEntries (fields : Fields) (url lp : String) (nodes : List Node) (e : Entry) :
    e ∈ scrapeEntries fields url lp nodes ↔
      ∃ n ∈ nodes, processNode fields url lp n = some e := by
  unfold scrapeEntries
  rw [List.mem_reverse, List.mem_filterMap]

theorem validatedEntry_title (fields : Fields) (url lp : String) (n : Node) :
    (validatedEntry fields url lp n).title = (mkItem fields url lp n).title := rfl

theorem validatedEntry_link (fields : Fields) (url lp : String) (n : Node) :
    (validatedEntry fields url lp n).link =
      (if (mkItem fields url lp n).link = "" then url else (mkItem fields url lp n).link) := rfl

/-- C1: an entry appears for a node iff that node's extracted title is
non-empty; every finalized entry has a non-empty title and a non-empty
link; and whenever extraction produced no usable href (the normalized
link of the raw item is empty), the finalized entry's link is the site's
configured url. -/
theorem c1_finalized_invariants (fields : Fields) (url lp : String) (nodes : List Node)
    (hurl : url ≠ "") :
    (∀ n ∈ nodes,
        (∃ e ∈ scrapeEntries fields url lp nodes, processNode fields url lp n = some e) ↔
          (mkItem fields url lp n).title ≠ "") ∧
    (∀ e ∈ scrapeEntries fields url lp nodes, e.title ≠ "" ∧ e.link ≠ "") ∧
    (∀ n e, processNode fields url lp n = some e →
      (mkItem fields url lp n).link = "" → e.link = url) := by
  refine ⟨?_, ?_, ?_⟩
  · intro n hn
    constructor
    · rintro ⟨e, _he, hpe⟩
      intro h0
      unfold processNode at hpe
      rw [if_pos h0] at hpe
      exact Option.noConfusion hpe
    · intro htit
      refine ⟨validatedEntry fields url lp n, ?_, ?_⟩
      · rw [mem_scrapeEntries]
        exact ⟨n, hn, by unfold processNode; rw [if_neg htit]⟩
      · unfold processNode; rw [if_neg htit]
  · intro e he
    rw [mem_scrapeEntries] at he
    obtain ⟨n, _hn, hpe⟩ := he
    unfold processNode at hpe
    by_cases h0 : (mkItem fields url lp n).title = ""
    · rw [if_pos h0] at hpe
      exact Option.noConfusion hpe
    · rw [if_neg h0] at hpe
      have hv := Option.some.inj hpe
      subst hv
      constructor
      · rw [validatedEntry_title]; exact h0
      · rw [validatedEntry_link]
        by_cases hl : (mkItem fields url lp n).link = ""
        · rw [if_pos hl]; exact hurl
        · rw [if_neg hl]; exact hl
  · intro n e hpe hlink
    unfold processNode at hpe
    by_cases h0 : (mkItem fields url lp n).title = ""
    · rw [if_pos h0] at hpe
      exact Option.noConfusion hpe
    · rw [if_neg h0] at hpe
      have hv := Option.some.inj hpe
      subst hv
      rw [validatedEntry_link, if_pos hlink]

theorem c1_witness :
    (("http://s.test" : String) ≠ "") ∧
    ((∀ n ∈ [nodeA],
        (∃ e ∈ scrapeEntries fieldsW "http://s.test" "" [nodeA],
          processNode fieldsW "http://s.test" "" n = some e) ↔
          (mkItem fieldsW "http://s.test" "" n).title ≠ "") ∧
      (∀ e ∈ scrapeEntries fieldsW "http://s.test" "" [nodeA], e.title ≠ "" ∧ e.link ≠ "") ∧
      (∀ n e, processNode fieldsW "http://s.test" "" n = some e →
        (mkItem fieldsW "http://s.test" "" n).link = "" → e.link = "http://s.test")) :=
  ⟨by decide, c1_finalized_invariants fieldsW "http://s.test" "" [nodeA] (by decide)⟩

/-! ## C2 -/

/-- The entry loop in selection order: surviving nodes (non-empty title),
each mapped to its validated entry. -/
theorem filterMap_processNode (fields : Fields) (url lp : String) (nodes : List Node) :
    nodes.filterMap (processNode fields url lp) =
      (nodes.filter (fun n => (mkItem fields url lp n).title != "")).map
        (validatedEntry fields url lp) := by
  induction nodes with
  | nil => rfl
  | cons n ns ih =>
    by_cases h : (mkItem fields url lp n).title = ""
    · have hp : processNode fields url lp n = none := by
        unfold processNode; rw [if_pos h]
      simp [List.filterMap_cons, List.filter_cons, hp, h, ih]
    · have hp : processNode fields url lp n = some (validatedEntry fields url lp n) := by
        unfold processNode; rw [if_neg h]
      simp [List.filterMap_cons, List.filter_cons, hp, h, ih]

/-- C2: when selection yields [A, B, C] in document order and all three
validate, the finalized sequence is [C, B, A]; in general the surviving
entries appear in the reverse of selection order. -/
theorem c2_reversed_order (fields : Fields) (url lp : String) (A B C : Node)
    (hA : (mkItem fields url lp A).title ≠ "")
    (hB : (mkItem fields url lp B).title ≠ "")
    (hC : (mkItem fields url lp C).title ≠ "") :
    scrapeEntries fields url lp [A, B, C] =
      [validatedEntry fields url lp C, validatedEntry fields url lp B,
        validatedEntry fields url lp A] ∧
    ∀ nodes : List Node,
      scrapeEntries fields url lp nodes =
        ((nodes.filter (fun n => (mkItem fields url lp n).title != "")).map
          (validatedEntry fields url lp)).reverse := by
  have hgen : ∀ nodes : List Node,
      scrapeEntries fields url lp nodes =
        ((nodes.filter (fun n => (mkItem fields url lp n).title != "")).map
          (validatedEntry fields url lp)).reverse := by
    intro nodes
    unfold scrapeEntries
    rw [filterMap_processNode]
  refine ⟨?_, hgen⟩
  rw [hgen]
  simp [List.filter_cons, hA, hB, hC]

theorem c2_witness :
    ((mkItem fieldsW "http://s.test" "" nodeA).title ≠ "" ∧
      (mkItem fieldsW "http://s.test" "" nodeB).title ≠ "" ∧
      (mkItem fieldsW "http://s.test" "" nodeC).title ≠ "") ∧
    scrapeEntries fieldsW "http://s.test" "" [nodeA, nodeB, nodeC] =
      [validatedEntry fieldsW "http://s.test" "" nodeC,
        validatedEntry fieldsW "http://s.test" "" nodeB,
        validatedEntry fieldsW "http://s.test" "" nodeA] :=
  ⟨⟨by decide, by decide, by decide⟩,
    (c2_reversed_order fieldsW "http://s.test" "" nodeA nodeB nodeC
      (by decide) (by decide) (by decide)).1⟩

/-! ## C10 -/

/-- C10: when the configured link selector matches an element whose href
is non-empty but normalizer-rejected, the first-`<a>` fallback is not
attempted (the non-empty raw href suppresses it before normalization):
the extracted link degrades to `""` and validation then sets it to the
site url.  The node's anchor descendant (`findA`) is unconstrained, so
this holds even when a navigable anchor exists. -/
theorem c10_rejected_href_suppresses_fallback (fields : Fields) (url lp : String)
    (elem : Node) (el : Element) (href : String)
    (hsel : pyStrip fields.link ≠ "")
    (hfound : elem.selectOne (pyStrip fields.link) = .ok (some el))
    (hhref : (el.getAttr "href").getD "" = href)
    (hne : href ≠ "")
    (hbad : rejectedHref (pyStrip href) = true) :
    safe_link elem fields.link url lp = "" ∧
    (∀ e, processNode fields url lp elem = some e → e.link = url) := by
  have h0 : raw_link_selected elem fields.link = href := by
    unfold raw_link_selected
    rw [if_neg hsel, hfound]
    exact hhref
  have h1 : raw_link elem fields.link = href := by
    unfold raw_link
    rw [h0, if_neg hne]
  have hsl : safe_link elem fields.link url lp = "" := by
    unfold safe_link
    rw [h1]
    unfold normalize_href
    rw [if_neg hne]
    show (if rejectedHref (pyStrip href) = true then ""
        else urljoin (if lp ≠ "" then lp else url) (pyStrip href)) = ""
    rw [if_pos hbad]
  refine ⟨hsl, ?_⟩
  intro e hpe
  have hml : (mkItem fields url lp elem).link = "" := hsl
  unfold processNode at hpe
  by_cases ht : (mkItem fields url lp elem).title = ""
  · rw [if_pos ht] at hpe
    exact Option.noConfusion hpe
  · rw [if_neg ht] at hpe
    have hv := Option.some.inj hpe
    subst hv
    rw [validatedEntry_link, if_pos hml]

theorem c10_witness :
    (pyStrip fieldsJs.link ≠ "" ∧
      nodeJs.selectOne (pyStrip fieldsJs.link) = .ok (some elJsLink) ∧
      (elJsLink.getAttr "href").getD "" = "javascript:void(0)" ∧
      ("javascript:void(0)" : String) ≠ "" ∧
      rejectedHref (pyStrip "javascript:void(0)") = true) ∧
    (safe_link nodeJs fieldsJs.link "http://s.test" "" = "" ∧
      (∀ e, processNode fieldsJs "http://s.test" "" nodeJs = some e →
        e.link = "http://s.test")) :=
  ⟨⟨by decide, rfl, rfl, by decide, by decide⟩,
    c10_rejected_href_suppresses_fallback fieldsJs "http://s.test" "" nodeJs elJsLink
      "javascript:void(0)" (by decide) rfl rfl (by decide) (by decide)⟩

/-! ## C8 -/

/-- C8: with a syntactically invalid item selector (modelled as `select`
reporting a `SelectorError`), the site yields zero entries without a
crash, no feed is written for it, and every other site's result is
exactly what it would be in isolation. -/
theorem c8_selector_error_isolation (cfg : SiteCfg) (fname : String) (doc : Document)
    (err : SelectorError) (pre post : List SiteInput)
    (hurl : pyStrip cfg.url ≠ "") (hsel : pyStrip cfg.item_selector ≠ "")
    (herr : doc.select (pyStrip cfg.item_selector) = .error err) :
    (scrape_site_from_cfg cfg fname (some doc)).2 = [] ∧
    (processSite ⟨cfg, fname, some doc⟩).2 = none ∧
    processAllSites (pre ++ ⟨cfg, fname, some doc⟩ :: post) =
      processAllSites pre ++ processSite ⟨cfg, fname, some doc⟩ :: processAllSites post := by
  have h1 : (scrape_site_from_cfg cfg fname (some doc)).2 = [] := by
    simp only [scrape_site_from_cfg]
    rw [if_neg hurl, if_neg hsel, herr]
  refine ⟨h1, ?_, ?_⟩
  · simp only [processSite]
    rw [h1]
    simp [build_and_write_feed]
  · simp [processAllSites]

theorem c8_witness :
    (pyStrip cfgW.url ≠ "" ∧ pyStrip cfgW.item_selector ≠ "" ∧
      badSelectorDoc.select (pyStrip cfgW.item_selector) = .error .invalid) ∧
    ((scrape_site_from_cfg cfgW "f" (some badSelectorDoc)).2 = [] ∧
      (processSite ⟨cfgW, "f", some badSelectorDoc⟩).2 = none ∧
      processAllSites ([] ++ ⟨cfgW, "f", some badSelectorDoc⟩ :: []) =
        processAllSites [] ++ processSite ⟨cfgW, "f", some badSelectorDoc⟩ ::
          processAllSites []) :=
  ⟨⟨by decide, by decide, rfl⟩,
    c8_selector_error_isolation cfgW "f" badSelectorDoc .invalid [] []
      (by decide) (by decide) rfl⟩

/-! ## C7 -/

/-- C7 and the code disagree on the separator: the literal at line 185
of the source is the three characters U+00E2 U+20AC U+201C (the UTF-8 en
dash mis-decoded as Windows-1252), so the composed title for title "T"
and subtitle "S" is not the claimed "T – S" (en dash U+2013); the
subtitle-empty case does compose to the bare title. -/
theorem c7_mojibake_separator :
    composeEntryTitle ⟨"T", "S", "", "", ""⟩ = "T â€“ S" ∧
    composeEntryTitle ⟨"T", "S", "", "", ""⟩ ≠ "T – S" ∧
    composeEntryTitle ⟨"T", "", "", "", ""⟩ = "T" := by decide
